import Mathlib

/-!
Verification of the days-to-hire statistics system (aggregation CLI and read API).

The definitions below are a shallow embedding of the source:
- `home_task/cli.py`: the two SQL statistics queries (window functions `NTILE`,
  `COUNT(*) OVER`, `percentile_cont`, and the value-equality `LEFT JOIN` against the
  `filtered` CTE), `clear_existing_statistics`, `insert_statistics`, and
  `process_job_postings`;
- `home_task/api.py`: `get_statistics` and `health_check`;
- migration `1c3013ad5eae`: the `days_to_hire_statistics` schema, in particular the
  NOT NULL constraints on `min_days`, `avg_days`, `max_days`.

Machine values are modelled as `Int` (the `days_to_hire` column) and `Rat`
(`percentile_cont` and `AVG` results, double precision in the source, modelled
exactly).  SQL `NULL` is `Option`; SQL equality `=` inside join conditions is the
ternary-logic comparison that never matches `NULL`, while `GROUP BY` and
`PARTITION BY` treat two `NULL`s as one group, as in PostgreSQL.  Window functions
ordered by `days_to_hire` break ties among equal values by the order in which the
rows appear in the fact table, a deterministic refinement of the unspecified
PostgreSQL tie order; every concrete input used below is chosen so that its
result does not depend on the tie order.
-/

attribute [local semireducible] Rat.add Rat.mul Rat.inv Rat.sub

/-- A row of the `job_posting` fact table (`days_to_hire` nullable integer). -/
structure JobPosting where
  id : String
  title : String
  standard_job_id : String
  country_code : Option String
  days_to_hire : Option Int
deriving DecidableEq, Repr

/-- A candidate statistics row as produced by the SQL queries in `cli.py`:
`avg_days` is the SQL `AVG` value, which is `NULL` when no joined row is non-null. -/
structure DaysToHireStatistics where
  standard_job_id : String
  country_code : Option String
  min_days : Rat
  avg_days : Option Rat
  max_days : Rat
  job_postings_number : Nat
deriving DecidableEq, Repr

/-- A committed row of the `days_to_hire_statistics` table; by migration
`1c3013ad5eae` the `avg_days` column is NOT NULL, so stored rows carry a plain `Rat`. -/
structure StoredStatisticsRow where
  standard_job_id : String
  country_code : Option String
  min_days : Rat
  avg_days : Rat
  max_days : Rat
  job_postings_number : Nat
deriving DecidableEq, Repr

/-- The `WHERE days_to_hire IS NOT NULL` filter applied by both queries. -/
def nonNullRows (fact : List JobPosting) : List JobPosting :=
  fact.filter (fun r => r.days_to_hire.isSome)

/-- The non-null `days_to_hire` value of a row (0 is never used: callers only
apply this to rows that passed `nonNullRows`). -/
def rowVal (r : JobPosting) : Int :=
  r.days_to_hire.getD 0

/-- The distinct `(standard_job_id, country_code)` grouping keys of the country
query; `GROUP BY` and `PARTITION BY` treat null country codes as one group. -/
def countryKeys (fact : List JobPosting) : List (String × Option String) :=
  ((nonNullRows fact).map (fun r => (r.standard_job_id, r.country_code))).dedup

/-- The distinct `standard_job_id` grouping keys of the global query. -/
def globalKeys (fact : List JobPosting) : List String :=
  ((nonNullRows fact).map (fun r => r.standard_job_id)).dedup

/-- The `days_to_hire` values of the country partition of `(j, cc)`, in fact-table order. -/
def countryVals (fact : List JobPosting) (j : String) (cc : Option String) : List Int :=
  ((nonNullRows fact).filter
    (fun r => decide (r.standard_job_id = j) && decide (r.country_code = cc))).map rowVal

/-- The `days_to_hire` values of the global partition of `j`, in fact-table order. -/
def globalVals (fact : List JobPosting) (j : String) : List Int :=
  ((nonNullRows fact).filter (fun r => decide (r.standard_job_id = j))).map rowVal

/-- PostgreSQL `NTILE(buckets)` bucket of the row at 1-based position `i` among `n`
ordered rows: the first `n % buckets` buckets hold `n / buckets + 1` rows, the rest
hold `n / buckets` rows. -/
def ntile (buckets n i : Nat) : Nat :=
  let q := n / buckets
  let r := n % buckets
  if i ≤ r * (q + 1) then (i - 1) / (q + 1) + 1
  else r + (i - r * (q + 1) - 1) / q + 1

/-- 1-based position of the row at index `i` (value `v`) when the partition is
sorted by `days_to_hire` ascending, ties kept in fact-table order. -/
def ascRank (vals : List Int) (i : Nat) (v : Int) : Nat :=
  vals.countP (fun w => decide (w < v)) + (vals.take i).countP (fun w => decide (w = v)) + 1

/-- 1-based position of the row at index `i` (value `v`) when the partition is
sorted by `days_to_hire` descending, ties kept in fact-table order. -/
def descRank (vals : List Int) (i : Nat) (v : Int) : Nat :=
  vals.countP (fun w => decide (v < w)) + (vals.take i).countP (fun w => decide (w = v)) + 1

/-- The `filtered` CTE restricted to one partition: values whose ascending-rank
decile (`decile_low`) and descending-rank decile (`decile_high`) both exceed 1. -/
def keptVals (vals : List Int) : List Int :=
  (vals.enum.filter (fun p =>
      decide (1 < ntile 10 vals.length (ascRank vals p.1 p.2)) &&
      decide (1 < ntile 10 vals.length (descRank vals p.1 p.2)))).map Prod.snd

/-- Number of `filtered` rows a ranked row of value `v` matches in the
`LEFT JOIN ... ON ... AND r.days_to_hire = f.days_to_hire`.  When the grouping
country code is `NULL`, the join condition `r.country_code = f.country_code`
is SQL-unknown, so nothing matches (`nullKey = true`). -/
def kmatch (kept : List Int) (nullKey : Bool) (v : Int) : Nat :=
  if nullKey then 0 else kept.count v

/-- The multiset of `r.days_to_hire` values over which the two `percentile_cont`
aggregates run: every ranked row appears once per matching `filtered` row, or
once with a null join partner when it matches none (`LEFT JOIN`). -/
def joinBase (vals kept : List Int) (nullKey : Bool) : List Int :=
  (vals.map (fun v =>
    let k := kmatch kept nullKey v
    if k = 0 then [v] else List.replicate k v)).flatten

/-- Insertion into a sorted list. -/
def insertSorted (x : Int) : List Int → List Int
  | [] => [x]
  | y :: ys => if x ≤ y then x :: y :: ys else y :: insertSorted x ys

/-- Insertion sort, ascending. -/
def sortVals : List Int → List Int
  | [] => []
  | x :: xs => insertSorted x (sortVals xs)

/-- PostgreSQL `percentile_cont(f) WITHIN GROUP (ORDER BY x)`: continuous rank
`1 + f * (n - 1)` (here 0-based `f * (n - 1)`) with linear interpolation between
the two adjacent order statistics. -/
def percentileCont (f : Rat) (xs : List Int) : Rat :=
  let s := sortVals xs
  let n := s.length
  let rank : Rat := f * ((n : Rat) - 1)
  let lo := (Rat.floor rank).toNat
  let hi := (Rat.ceil rank).toNat
  let xlo : Rat := ((s.getD lo 0 : Int) : Rat)
  let xhi : Rat := ((s.getD hi 0 : Int) : Rat)
  xlo + (rank - (Rat.floor rank : Rat)) * (xhi - xlo)

/-- `AVG(f.days_to_hire)` over the joined group: null join partners are ignored,
so each ranked row of value `v` contributes `kmatch v` copies of `v`; the result
is SQL `NULL` when no pair has a non-null `f` side. -/
def avgKept (vals kept : List Int) (nullKey : Bool) : Option Rat :=
  let den := (vals.map (fun v => kmatch kept nullKey v)).sum
  if den = 0 then none
  else some (((vals.map (fun v => (kmatch kept nullKey v : Int) * v)).sum : Rat) / (den : Rat))

/-- One output row of either statistics query for the partition with values
`vals` and record key `(j, cc)`; `nullKey` tells whether the join matches on a
null country code (country query with a null-country group). -/
def partitionStats (j : String) (cc : Option String) (nullKey : Bool)
    (vals : List Int) : DaysToHireStatistics :=
  let kept := keptVals vals
  { standard_job_id := j
    country_code := cc
    min_days := percentileCont (1/10) (joinBase vals kept nullKey)
    avg_days := avgKept vals kept nullKey
    max_days := percentileCont (9/10) (joinBase vals kept nullKey)
    job_postings_number := vals.length }

/-- The rows of `COUNTRY_STATS_QUERY` (`cli.py`): one per country grouping key
whose `total_count` passes `HAVING total_count >= min_postings`. -/
def countryStatsQuery (fact : List JobPosting) (minPostings : Nat) :
    List DaysToHireStatistics :=
  (countryKeys fact).filterMap (fun k =>
    if minPostings ≤ (countryVals fact k.1 k.2).length
    then some (partitionStats k.1 k.2 k.2.isNone (countryVals fact k.1 k.2))
    else none)

/-- The rows of `GLOBAL_STATS_QUERY` (`cli.py`): one per standard job whose
global `total_count` passes the threshold; the record country code is null but the
join matches on `(standard_job_id, days_to_hire)` alone. -/
def globalStatsQuery (fact : List JobPosting) (minPostings : Nat) :
    List DaysToHireStatistics :=
  (globalKeys fact).filterMap (fun j =>
    if minPostings ≤ (globalVals fact j).length
    then some (partitionStats j none false (globalVals fact j))
    else none)

/-- The committed form of a candidate row (only reached when `avg_days` is non-null). -/
def storedOfCandidate (c : DaysToHireStatistics) : StoredStatisticsRow :=
  { standard_job_id := c.standard_job_id
    country_code := c.country_code
    min_days := c.min_days
    avg_days := c.avg_days.getD 0
    max_days := c.max_days
    job_postings_number := c.job_postings_number }

/-- `insert_statistics` followed by `session.commit()`: the commit succeeds only
if every row satisfies the NOT NULL constraint on `avg_days` (migration
`1c3013ad5eae`); otherwise the insert transaction fails and nothing is stored. -/
def insertAllOrFail (cands : List DaysToHireStatistics) :
    Option (List StoredStatisticsRow) :=
  if cands.all (fun c => c.avg_days.isSome) then some (cands.map storedOfCandidate)
  else none

/-- `process_job_postings` (`cli.py`): clear, run both queries (country rows first,
then global rows), insert, commit.  Returns the committed table of a completed
run, or `none` when the run aborts. -/
def process_job_postings (fact : List JobPosting) (minPostings : Nat) :
    Option (List StoredStatisticsRow) :=
  insertAllOrFail (countryStatsQuery fact minPostings ++ globalStatsQuery fact minPostings)

/-- Contents of `days_to_hire_statistics` after `process_job_postings` has
completed `stepsCompleted` of its four committing-relevant actions against a
table holding `prior`:
step 1 is `clear_existing_statistics`, which runs `DELETE` and immediately
`session.commit()` (`cli.py` line 98); steps 2 and 3 are the two queries (their
inserts stay in the session); step 4 is the final `session.commit()` (`cli.py`
line 159).  A run that stops earlier (any raised error) leaves the table at the
state committed so far. -/
def committedAfterSteps (prior : List StoredStatisticsRow) (fact : List JobPosting)
    (minPostings : Nat) (stepsCompleted : Nat) : List StoredStatisticsRow :=
  if stepsCompleted = 0 then prior
  else if stepsCompleted < 4 then []
  else
    match process_job_postings fact minPostings with
    | some t => t
    | none => []

/-- The two shapes of not-found detail message built by `get_statistics`
(`api.py` lines 154-157): one names only the job (global lookup), the other names
the job and the country code. -/
inductive NotFoundDetail
  | globalMissing (standard_job_id : String)
  | jobCountryMissing (standard_job_id : String) (country_code : String)
deriving DecidableEq, Repr

/-- Outcome of a `GET /statistics` request: success, or an `HTTPException` with
status 400 (invalid input), 404 (not found) or 500 (internal error). -/
inductive ApiResult
  | success (record : StoredStatisticsRow)
  | invalidInput (detail : String)
  | notFound (detail : NotFoundDetail)
  | internalError (detail : String)
deriving DecidableEq, Repr

/-- HTTP status code of an `ApiResult`. -/
def statusOf : ApiResult → Nat
  | .success _ => 200
  | .invalidInput _ => 400
  | .notFound _ => 404
  | .internalError _ => 500

/-- Python truthiness of the optional `country_code` query parameter: `None` and
the empty string are falsy (`if country_code:` in `api.py` line 108). -/
def strTruthy : Option String → Bool
  | none => false
  | some s => !(s == "")

/-- A whitespace character in the sense of Python `str.strip()`. -/
def isSpaceChar (c : Char) : Bool :=
  c == ' ' || c == '\t' || c == '\n' || c == '\x0d' || c == '\x0b' || c == '\x0c'

/-- Drop leading whitespace characters. -/
def dropLeadingSpace : List Char → List Char
  | [] => []
  | c :: cs => if isSpaceChar c then dropLeadingSpace cs else c :: cs

/-- Python `str.strip()` with no argument: remove leading and trailing
whitespace. -/
def pyStrip (s : String) : String :=
  ⟨dropLeadingSpace (dropLeadingSpace s.data.reverse).reverse⟩

/-- SQL equality used in `WHERE country_code = :country_code`: never matches a
stored `NULL`. -/
def sqlStrEq : Option String → Option String → Bool
  | some a, some b => a == b
  | _, _ => false

/-- The rows returned by the SQL lookup in `get_statistics`: country-specific
when the parameter is truthy, otherwise the `country_code IS NULL` rows. -/
def lookupRows (t : List StoredStatisticsRow) (j : String) (cc : Option String) :
    List StoredStatisticsRow :=
  if strTruthy cc then
    t.filter (fun r => r.standard_job_id == j && sqlStrEq r.country_code cc)
  else
    t.filter (fun r => r.standard_job_id == j && r.country_code == none)

/-- Which not-found detail `get_statistics` builds (`if country_code:` again). -/
def detailFor (j : String) (cc : Option String) : NotFoundDetail :=
  match cc with
  | some c => if c == "" then .globalMissing j else .jobCountryMissing j c
  | none => .globalMissing j

/-- `get_statistics` (`api.py`): empty or blank `standard_job_id` is rejected
with 400 before the datastore is touched; a datastore failure becomes 500; an
empty result set becomes 404 with a detail depending on the lookup performed;
otherwise `fetchone` returns the first matching row. -/
def get_statistics (db : Except String (List StoredStatisticsRow))
    (standard_job_id : String) (country_code : Option String) : ApiResult :=
  if pyStrip standard_job_id == "" then
    .invalidInput "standard_job_id parameter is required and cannot be empty"
  else
    match db with
    | .error e => .internalError ("Internal server error while retrieving statistics: " ++ e)
    | .ok t =>
      match (lookupRows t standard_job_id country_code).head? with
      | some row => .success row
      | none => .notFound (detailFor standard_job_id country_code)

/-- Response of the `/health` endpoint. -/
structure HealthResponse where
  status : String
  service : String
deriving DecidableEq, Repr

/-- `health_check` (`api.py` lines 187-189): a constant body; the handler never
opens a session, so the datastore state (available or failed) is ignored. -/
def health_check (dbState : Except String (List StoredStatisticsRow)) : HealthResponse :=
  { status := "healthy", service := "days-to-hire-statistics-api" }

/-- Modelled from the spec: the linear-interpolation percentile of the full
untrimmed partition, the value claims C3 expects for `min_days` and `max_days`. -/
def specFullPartitionPercentile (f : Rat) (vals : List Int) : Rat :=
  percentileCont f vals

/-- Modelled from the spec: the plain arithmetic mean of the kept (trimmed)
subset, each kept value weighted once; undefined (`none`) for an empty kept
subset. -/
def specKeptMean (vals : List Int) : Option Rat :=
  let kept := keptVals vals
  if kept = [] then none else some ((kept.sum : Rat) / (kept.length : Rat))

/-- Five `j1`/`US` postings with distinct days 10..50: enough for the default
threshold of 5 and free of duplicate values. -/
def exampleFact : List JobPosting :=
  [⟨"a0", "t", "j1", some "US", some 10⟩,
   ⟨"a1", "t", "j1", some "US", some 20⟩,
   ⟨"a2", "t", "j1", some "US", some 30⟩,
   ⟨"a3", "t", "j1", some "US", some 40⟩,
   ⟨"a4", "t", "j1", some "US", some 50⟩]

/-- The country row the queries produce for `exampleFact`. -/
def exampleCountryRec : DaysToHireStatistics :=
  ⟨"j1", some "US", 14, some 30, 46, 5⟩

/-- The committed table of a completed run over `exampleFact` with threshold 5. -/
def exampleTable : List StoredStatisticsRow :=
  [⟨"j1", some "US", 14, 30, 46, 5⟩, ⟨"j1", none, 14, 30, 46, 5⟩]

/-- A pre-existing snapshot row, used to exhibit the lost-snapshot behavior. -/
def priorSnapshotRow : StoredStatisticsRow :=
  ⟨"old-job", none, 1, 2, 3, 4⟩

/-- One partition `j`/`US` with values 1, 2, 2, 3: the duplicated value 2 is kept
twice, so the value-equality join quadruples it under `percentile_cont`. -/
def cexFact3 : List JobPosting :=
  [⟨"b0", "t", "j", some "US", some 1⟩,
   ⟨"b1", "t", "j", some "US", some 2⟩,
   ⟨"b2", "t", "j", some "US", some 2⟩,
   ⟨"b3", "t", "j", some "US", some 3⟩]

/-- One partition `j`/`US` with values 1, 2, 2, 3, 4: the kept subset is
2, 2, 3 but the join weights the value 2 four times against 3 once. -/
def cexFact4 : List JobPosting :=
  [⟨"c0", "t", "j", some "US", some 1⟩,
   ⟨"c1", "t", "j", some "US", some 2⟩,
   ⟨"c2", "t", "j", some "US", some 2⟩,
   ⟨"c3", "t", "j", some "US", some 3⟩,
   ⟨"c4", "t", "j", some "US", some 4⟩]

/-- A stored global (null-country) statistics row for job `j`. -/
def nullCountryStoredRow : StoredStatisticsRow :=
  ⟨"j", none, 1, 2, 3, 4⟩

/-- A stored `US` statistics row for job `j`. -/
def usStoredRow : StoredStatisticsRow :=
  ⟨"j", some "US", 5, 6, 7, 8⟩

@[simp]
lemma partitionStats_job (j : String) (cc : Option String) (b : Bool) (vals : List Int) :
    (partitionStats j cc b vals).standard_job_id = j := rfl

@[simp]
lemma partitionStats_cc (j : String) (cc : Option String) (b : Bool) (vals : List Int) :
    (partitionStats j cc b vals).country_code = cc := rfl

lemma partitionStats_min (j : String) (cc : Option String) (b : Bool) (vals : List Int) :
    (partitionStats j cc b vals).min_days =
      percentileCont (1/10) (joinBase vals (keptVals vals) b) := rfl

lemma partitionStats_max (j : String) (cc : Option String) (b : Bool) (vals : List Int) :
    (partitionStats j cc b vals).max_days =
      percentileCont (9/10) (joinBase vals (keptVals vals) b) := rfl

lemma partitionStats_avg (j : String) (cc : Option String) (b : Bool) (vals : List Int) :
    (partitionStats j cc b vals).avg_days = avgKept vals (keptVals vals) b := rfl

@[simp]
lemma storedOfCandidate_job (c : DaysToHireStatistics) :
    (storedOfCandidate c).standard_job_id = c.standard_job_id := rfl

@[simp]
lemma storedOfCandidate_cc (c : DaysToHireStatistics) :
    (storedOfCandidate c).country_code = c.country_code := rfl

lemma mem_of_head_eq_some {α : Type} {l : List α} {a : α} (h : l.head? = some a) :
    a ∈ l := by
  cases l with
  | nil => simp at h
  | cons b bs =>
    simp only [List.head?_cons, Option.some_inj] at h
    exact h ▸ List.mem_cons_self b bs

lemma keptVals_sublist (vals : List Int) : (keptVals vals).Sublist vals := by
  have h1 := List.filter_sublist (p := fun p : Nat × Int =>
      decide (1 < ntile 10 vals.length (ascRank vals p.1 p.2)) &&
      decide (1 < ntile 10 vals.length (descRank vals p.1 p.2))) vals.enum
  have h2 := h1.map Prod.snd
  rw [List.enum_map_snd] at h2
  exact h2

lemma joinBase_eq_of_le_one {kept : List Int} {b : Bool}
    (h : ∀ v : Int, kmatch kept b v ≤ 1) (vals : List Int) :
    joinBase vals kept b = vals := by
  induction vals with
  | nil => rfl
  | cons v vs ih =>
    simp only [joinBase, List.map_cons, List.flatten_cons] at ih ⊢
    rw [ih]
    cases hk : kmatch kept b v with
    | zero => simp
    | succ n =>
      have hn : n = 0 := by have := h v; omega
      subst hn
      simp

lemma joinBase_eq_of_nodup {vals : List Int} (hnd : vals.Nodup) (b : Bool) :
    joinBase vals (keptVals vals) b = vals := by
  apply joinBase_eq_of_le_one
  intro v
  unfold kmatch
  cases b with
  | true => simp
  | false =>
    rw [if_neg Bool.false_ne_true]
    calc (keptVals vals).count v ≤ vals.count v :=
          (keptVals_sublist vals).count_le v
      _ ≤ 1 := List.nodup_iff_count_le_one.mp hnd v

lemma count_sums_of_sublist {ks vs : List Int} (h : ks.Sublist vs) : vs.Nodup →
    (vs.map (fun v => (ks.count v : Int) * v)).sum = ks.sum ∧
    (vs.map (fun v => ks.count v)).sum = ks.length := by
  induction h with
  | slnil => simp
  | @cons l1 l2 a h ih =>
    intro hnd
    obtain ⟨ha, hnd2⟩ := List.nodup_cons.mp hnd
    have hih := ih hnd2
    have hka : l1.count a = 0 :=
      List.count_eq_zero.mpr (fun hm => ha (h.subset hm))
    simp [hka, hih.1, hih.2]
  | @cons₂ l1 l2 a h ih =>
    intro hnd
    obtain ⟨ha, hnd2⟩ := List.nodup_cons.mp hnd
    have hih := ih hnd2
    have hka : l1.count a = 0 :=
      List.count_eq_zero.mpr (fun hm => ha (h.subset hm))
    have hmapeq1 : l2.map (fun v => ((a :: l1).count v : Int) * v) =
        l2.map (fun v => (l1.count v : Int) * v) := by
      apply List.map_congr_left
      intro v hv
      have hva : v ≠ a := fun he => ha (he ▸ hv)
      rw [List.count_cons_of_ne hva]
    have hmapeq2 : l2.map (fun v => (a :: l1).count v) =
        l2.map (fun v => l1.count v) := by
      apply List.map_congr_left
      intro v hv
      have hva : v ≠ a := fun he => ha (he ▸ hv)
      rw [List.count_cons_of_ne hva]
    constructor
    · rw [List.map_cons, List.sum_cons, hmapeq1, hih.1, List.count_cons_self, hka,
        List.sum_cons]
      push_cast
      ring
    · rw [List.map_cons, List.sum_cons, hmapeq2, hih.2, List.count_cons_self, hka,
        List.length_cons]
      omega

lemma avgKept_nullKey (vals kept : List Int) : avgKept vals kept true = none := by
  simp [avgKept, kmatch]

lemma avgKept_eq_specKeptMean {vals : List Int} (hnd : vals.Nodup) :
    avgKept vals (keptVals vals) false = specKeptMean vals := by
  have hsums := count_sums_of_sublist (keptVals_sublist vals) hnd
  unfold avgKept specKeptMean
  simp only [kmatch, if_neg Bool.false_ne_true]
  rw [hsums.1, hsums.2]
  by_cases hk : keptVals vals = []
  · rw [if_pos (by rw [hk]; rfl), if_pos hk]
  · rw [if_neg (by simpa [List.length_eq_zero] using hk), if_neg hk]

lemma mem_countryStatsQuery {fact : List JobPosting} {mp : Nat}
    {rec : DaysToHireStatistics} :
    rec ∈ countryStatsQuery fact mp ↔
      ∃ k, k ∈ countryKeys fact ∧ mp ≤ (countryVals fact k.1 k.2).length ∧
        rec = partitionStats k.1 k.2 k.2.isNone (countryVals fact k.1 k.2) := by
  unfold countryStatsQuery
  rw [List.mem_filterMap]
  constructor
  · rintro ⟨k, hk, hfk⟩
    by_cases hc : mp ≤ (countryVals fact k.1 k.2).length
    · rw [if_pos hc] at hfk
      exact ⟨k, hk, hc, (Option.some_inj.mp hfk).symm⟩
    · rw [if_neg hc] at hfk
      cases hfk
  · rintro ⟨k, hk, hc, rfl⟩
    exact ⟨k, hk, by rw [if_pos hc]⟩

lemma mem_globalStatsQuery {fact : List JobPosting} {mp : Nat}
    {rec : DaysToHireStatistics} :
    rec ∈ globalStatsQuery fact mp ↔
      ∃ j, j ∈ globalKeys fact ∧ mp ≤ (globalVals fact j).length ∧
        rec = partitionStats j none false (globalVals fact j) := by
  unfold globalStatsQuery
  rw [List.mem_filterMap]
  constructor
  · rintro ⟨j, hj, hfj⟩
    by_cases hc : mp ≤ (globalVals fact j).length
    · rw [if_pos hc] at hfj
      exact ⟨j, hj, hc, (Option.some_inj.mp hfj).symm⟩
    · rw [if_neg hc] at hfj
      cases hfj
  · rintro ⟨j, hj, hc, rfl⟩
    exact ⟨j, hj, by rw [if_pos hc]⟩

lemma mem_countryKeys_iff {fact : List JobPosting} {j : String} {cc : Option String} :
    (j, cc) ∈ countryKeys fact ↔ countryVals fact j cc ≠ [] := by
  unfold countryKeys countryVals
  rw [List.mem_dedup, List.mem_map, Ne, List.map_eq_nil_iff, List.filter_eq_nil_iff]
  push_neg
  constructor
  · rintro ⟨r, hr, heq⟩
    have h1 : r.standard_job_id = j := congrArg Prod.fst heq
    have h2 : r.country_code = cc := congrArg Prod.snd heq
    exact ⟨r, hr, by simp [h1, h2]⟩
  · rintro ⟨r, hr, hp⟩
    simp only [Bool.and_eq_true, decide_eq_true_eq] at hp
    exact ⟨r, hr, by simp [hp.1, hp.2]⟩

lemma mem_globalKeys_iff {fact : List JobPosting} {j : String} :
    j ∈ globalKeys fact ↔ globalVals fact j ≠ [] := by
  unfold globalKeys globalVals
  rw [List.mem_dedup, List.mem_map, Ne, List.map_eq_nil_iff, List.filter_eq_nil_iff]
  push_neg
  constructor
  · rintro ⟨r, hr, heq⟩
    exact ⟨r, hr, by simp [heq]⟩
  · rintro ⟨r, hr, hp⟩
    simp only [decide_eq_true_eq] at hp
    exact ⟨r, hr, hp⟩

lemma countP_filterMap_nodup {K R : Type} [DecidableEq K] {f : K → Option R}
    {p : R → Bool} {z : K} : ∀ {l : List K}, l.Nodup →
    (∀ r, f z = some r → p r = true) →
    (∀ k, k ≠ z → ∀ r, f k = some r → p r = false) →
    (l.filterMap f).countP p = if z ∈ l ∧ (f z).isSome then 1 else 0
  | [] => by simp
  | a :: l => by
    intro hnd h₀ hne
    obtain ⟨hal, hl⟩ := List.nodup_cons.mp hnd
    have ih := countP_filterMap_nodup hl h₀ hne
    by_cases hk : z = a
    · subst hk
      cases hfa : f z with
      | none =>
        rw [List.filterMap_cons, hfa, ih]
        simp [hfa]
      | some r =>
        have hrest : (l.filterMap f).countP p = 0 := by
          rw [List.countP_eq_zero]
          intro x hx
          obtain ⟨k, hkl, hfk⟩ := List.mem_filterMap.mp hx
          have hkne : k ≠ z := fun he => hal (he ▸ hkl)
          simp [hne k hkne x hfk]
        rw [List.filterMap_cons, hfa, List.countP_cons, hrest, h₀ r hfa]
        simp [hfa]
    · have hmem : (z ∈ a :: l ∧ (f z).isSome) ↔ (z ∈ l ∧ (f z).isSome) := by
        simp [List.mem_cons, hk]
      cases hfa : f a with
      | none =>
        rw [List.filterMap_cons, hfa, ih]
        exact if_congr hmem.symm rfl rfl
      | some r =>
        have hpr : p r = false := hne a (fun he => hk he.symm) r hfa
        rw [List.filterMap_cons, hfa, List.countP_cons, hpr, ih]
        simp only [Bool.false_eq_true, if_false, add_zero]
        exact if_congr hmem.symm rfl rfl

lemma process_eq_some_iff {fact : List JobPosting} {mp : Nat}
    {t : List StoredStatisticsRow} :
    process_job_postings fact mp = some t ↔
      (countryStatsQuery fact mp ++ globalStatsQuery fact mp).all
        (fun c => c.avg_days.isSome) = true ∧
      t = (countryStatsQuery fact mp ++ globalStatsQuery fact mp).map storedOfCandidate := by
  unfold process_job_postings insertAllOrFail
  by_cases hall : (countryStatsQuery fact mp ++ globalStatsQuery fact mp).all
      (fun c => c.avg_days.isSome) = true
  · rw [if_pos hall]
    simp [hall, eq_comm]
  · rw [if_neg hall]
    simp [hall]

lemma countP_countryStatsQuery (fact : List JobPosting) (mp : Nat) (j : String)
    (c : Option String) :
    (countryStatsQuery fact mp).countP
        (fun x => decide (x.standard_job_id = j ∧ x.country_code = c)) =
      if (j, c) ∈ countryKeys fact ∧ mp ≤ (countryVals fact j c).length then 1 else 0 := by
  unfold countryStatsQuery
  rw [countP_filterMap_nodup (z := ((j, c) : String × Option String))
      (show (countryKeys fact).Nodup from List.nodup_dedup _) ?h0 ?hne]
  case h0 =>
    intro r hr
    by_cases hmp : mp ≤ (countryVals fact j c).length
    · rw [if_pos hmp] at hr
      rw [← Option.some_inj.mp hr]
      simp
    · rw [if_neg hmp] at hr
      cases hr
  case hne =>
    intro k hk r hr
    by_cases hmp : mp ≤ (countryVals fact k.1 k.2).length
    · rw [if_pos hmp] at hr
      rw [← Option.some_inj.mp hr]
      apply decide_eq_false
      rintro ⟨h1, h2⟩
      simp only [partitionStats_job, partitionStats_cc] at h1 h2
      exact hk (Prod.ext_iff.mpr ⟨h1, h2⟩)
    · rw [if_neg hmp] at hr
      cases hr
  by_cases hmp : mp ≤ (countryVals fact j c).length
  · simp [hmp]
  · simp [hmp]

lemma countP_globalStatsQuery (fact : List JobPosting) (mp : Nat) (j : String) :
    (globalStatsQuery fact mp).countP
        (fun x => decide (x.standard_job_id = j ∧ x.country_code = none)) =
      if j ∈ globalKeys fact ∧ mp ≤ (globalVals fact j).length then 1 else 0 := by
  unfold globalStatsQuery
  rw [countP_filterMap_nodup (z := j)
      (show (globalKeys fact).Nodup from List.nodup_dedup _) ?h0 ?hne]
  case h0 =>
    intro r hr
    by_cases hmp : mp ≤ (globalVals fact j).length
    · rw [if_pos hmp] at hr
      rw [← Option.some_inj.mp hr]
      simp
    · rw [if_neg hmp] at hr
      cases hr
  case hne =>
    intro k hk r hr
    by_cases hmp : mp ≤ (globalVals fact k).length
    · rw [if_pos hmp] at hr
      rw [← Option.some_inj.mp hr]
      apply decide_eq_false
      rintro ⟨h1, h2⟩
      simp only [partitionStats_job] at h1
      exact hk h1
    · rw [if_neg hmp] at hr
      cases hr
  by_cases hmp : mp ≤ (globalVals fact j).length
  · simp [hmp]
  · simp [hmp]

lemma countP_globalStatsQuery_some (fact : List JobPosting) (mp : Nat) (j : String)
    (c : String) :
    (globalStatsQuery fact mp).countP
        (fun x => decide (x.standard_job_id = j ∧ x.country_code = some c)) = 0 := by
  rw [List.countP_eq_zero]
  intro r hr
  obtain ⟨j2, hj2, hc2, rfl⟩ := mem_globalStatsQuery.mp hr
  simp

lemma countP_countryStatsQuery_none (fact : List JobPosting) (mp : Nat)
    (hall : (countryStatsQuery fact mp ++ globalStatsQuery fact mp).all
      (fun c => c.avg_days.isSome) = true) (j : String) :
    (countryStatsQuery fact mp).countP
        (fun x => decide (x.standard_job_id = j ∧ x.country_code = none)) = 0 := by
  rw [List.countP_eq_zero]
  intro r hr
  obtain ⟨k, hk, hmp, hrec⟩ := mem_countryStatsQuery.mp hr
  have hsome : r.avg_days.isSome = true :=
    List.all_eq_true.mp hall r (List.mem_append_left _ hr)
  intro hpr
  obtain ⟨h1, h2⟩ := of_decide_eq_true hpr
  have hknone : k.2 = none := by
    rw [hrec] at h2
    simpa using h2
  rw [hrec, partitionStats_avg, hknone] at hsome
  rw [show (none : Option String).isNone = true from rfl] at hsome
  rw [avgKept_nullKey] at hsome
  cases hsome

lemma countP_key_completed {fact : List JobPosting} {mp : Nat}
    {t : List StoredStatisticsRow} (h : process_job_postings fact mp = some t)
    (j : String) (cc : Option String) :
    t.countP (fun r => decide (r.standard_job_id = j ∧ r.country_code = cc)) =
      (countryStatsQuery fact mp).countP
        (fun x => decide (x.standard_job_id = j ∧ x.country_code = cc)) +
      (globalStatsQuery fact mp).countP
        (fun x => decide (x.standard_job_id = j ∧ x.country_code = cc)) := by
  obtain ⟨hall, ht⟩ := process_eq_some_iff.mp h
  subst ht
  rw [List.countP_map, ← List.countP_append]
  rfl

/-- C1: the claim states that the delete of all existing statistics rows and the
insert of the fresh records commit as one atomic transaction, so that any
failure after the delete but before the final commit leaves the previous
snapshot unchanged.  The code instead commits the delete on its own inside
`clear_existing_statistics` (`cli.py` line 98): evaluated at a run that aborts
right after that first commit (one completed step), the table is empty even
though the previous snapshot was not. -/
theorem c1_failure_after_clear_loses_snapshot :
    committedAfterSteps [priorSnapshotRow] exampleFact 5 1 = [] ∧
    [priorSnapshotRow] ≠ ([] : List StoredStatisticsRow) :=
  ⟨rfl, by simp⟩

/-- C2: after every completed aggregation run, for every fact table and
threshold, the committed table holds at most one record per
(standard job, country code) pair, the null country code included. -/
theorem c2_at_most_one_record_per_key (fact : List JobPosting) (mp : Nat)
    (t : List StoredStatisticsRow) (h : process_job_postings fact mp = some t)
    (j : String) (cc : Option String) :
    t.countP (fun r => decide (r.standard_job_id = j ∧ r.country_code = cc)) ≤ 1 := by
  rw [countP_key_completed h]
  obtain ⟨hall, ht⟩ := process_eq_some_iff.mp h
  cases cc with
  | some c =>
    rw [countP_countryStatsQuery, countP_globalStatsQuery_some]
    split <;> omega
  | none =>
    rw [countP_countryStatsQuery_none fact mp hall, countP_globalStatsQuery]
    split <;> omega

/-- Witness for C2 at a concrete completed run. -/
theorem c2_witness :
    process_job_postings exampleFact 5 = some exampleTable ∧
    exampleTable.countP
      (fun r => decide (r.standard_job_id = "j1" ∧ r.country_code = some "US")) ≤ 1 :=
  ⟨by decide,
   c2_at_most_one_record_per_key exampleFact 5 exampleTable (by decide) "j1" (some "US")⟩

/-- C5: after a completed run, a grouping key with a non-empty partition meeting
the threshold has exactly one record, and every other grouping key has zero
records; below-threshold partitions are skipped without affecting the run. -/
theorem c5_threshold_exactly_one (fact : List JobPosting) (mp : Nat)
    (t : List StoredStatisticsRow) (h : process_job_postings fact mp = some t)
    (j : String) :
    (∀ c : String,
      t.countP (fun r => decide (r.standard_job_id = j ∧ r.country_code = some c)) =
        if 0 < (countryVals fact j (some c)).length ∧
            mp ≤ (countryVals fact j (some c)).length then 1 else 0) ∧
    (t.countP (fun r => decide (r.standard_job_id = j ∧ r.country_code = none)) =
        if 0 < (globalVals fact j).length ∧ mp ≤ (globalVals fact j).length
        then 1 else 0) := by
  obtain ⟨hall, ht⟩ := process_eq_some_iff.mp h
  constructor
  · intro c
    rw [countP_key_completed h, countP_countryStatsQuery, countP_globalStatsQuery_some,
      add_zero]
    exact if_congr
      (and_congr_left' (mem_countryKeys_iff.trans List.length_pos.symm)) rfl rfl
  · rw [countP_key_completed h, countP_countryStatsQuery_none fact mp hall,
      countP_globalStatsQuery, zero_add]
    exact if_congr
      (and_congr_left' (mem_globalKeys_iff.trans List.length_pos.symm)) rfl rfl

/-- Witness for C5 at a concrete completed run. -/
theorem c5_witness :
    exampleTable.countP
      (fun r => decide (r.standard_job_id = "j1" ∧ r.country_code = some "US")) =
      (if 0 < (countryVals exampleFact "j1" (some "US")).length ∧
          5 ≤ (countryVals exampleFact "j1" (some "US")).length then 1 else 0) :=
  (c5_threshold_exactly_one exampleFact 5 exampleTable (by decide) "j1").1 "US"

/-- C8: running the aggregation twice in succession over the same fact table and
the same threshold yields an identical committed snapshot after each run: the
second run, started from whatever table the first run left, commits the same
rows, because the run always clears the table before recomputing. -/
theorem c8_rerun_idempotent (fact : List JobPosting) (mp : Nat)
    (prior : List StoredStatisticsRow) :
    committedAfterSteps (committedAfterSteps prior fact mp 4) fact mp 4 =
      committedAfterSteps prior fact mp 4 := by
  simp [committedAfterSteps]

/-- C9: for every datastore state, calling the lookup with an empty-string
country code behaves identically to omitting the parameter: both read the
null-country (global) row, because the handler tests Python truthiness. -/
theorem c9_empty_country_is_global (db : Except String (List StoredStatisticsRow))
    (j : String) :
    get_statistics db j (some "") = get_statistics db j none := rfl

/-- C10: the health endpoint returns the same constant success body with status
"healthy" for every datastore state, including a failed datastore, without
consulting it. -/
theorem c10_health_constant (s1 s2 : Except String (List StoredStatisticsRow)) :
    health_check s1 = health_check s2 ∧ (health_check s1).status = "healthy" :=
  ⟨rfl, rfl⟩

/-- C3 (amended): for every emitted record whose partition values are pairwise
distinct, `min_days` and `max_days` are the linear-interpolation 10th and 90th
percentiles of the full untrimmed partition.  With duplicate values the claim
fails (see the counterexample): the value-equality join feeds `percentile_cont`
each ranked row once per matching kept row, inflating duplicated values. -/
theorem c3_percentiles_of_distinct_values (fact : List JobPosting) (mp : Nat)
    (rec : DaysToHireStatistics) :
    (rec ∈ countryStatsQuery fact mp →
      (countryVals fact rec.standard_job_id rec.country_code).Nodup →
      rec.min_days = specFullPartitionPercentile (1/10)
          (countryVals fact rec.standard_job_id rec.country_code) ∧
      rec.max_days = specFullPartitionPercentile (9/10)
          (countryVals fact rec.standard_job_id rec.country_code)) ∧
    (rec ∈ globalStatsQuery fact mp →
      (globalVals fact rec.standard_job_id).Nodup →
      rec.min_days = specFullPartitionPercentile (1/10)
          (globalVals fact rec.standard_job_id) ∧
      rec.max_days = specFullPartitionPercentile (9/10)
          (globalVals fact rec.standard_job_id)) := by
  constructor
  · intro hmem hnd
    obtain ⟨k, hk, hmp, rfl⟩ := mem_countryStatsQuery.mp hmem
    simp only [partitionStats_job, partitionStats_cc] at hnd ⊢
    unfold specFullPartitionPercentile
    rw [partitionStats_min, partitionStats_max, joinBase_eq_of_nodup hnd]
    exact ⟨rfl, rfl⟩
  · intro hmem hnd
    obtain ⟨j, hj, hmp, rfl⟩ := mem_globalStatsQuery.mp hmem
    simp only [partitionStats_job] at hnd ⊢
    unfold specFullPartitionPercentile
    rw [partitionStats_min, partitionStats_max, joinBase_eq_of_nodup hnd]
    exact ⟨rfl, rfl⟩

/-- Witness for C3: the distinct-valued example partition 10..50 gives
`min_days` 14 and `max_days` 46, the true full-partition percentiles. -/
theorem c3_witness :
    exampleCountryRec ∈ countryStatsQuery exampleFact 5 ∧
    (countryVals exampleFact "j1" (some "US")).Nodup ∧
    (exampleCountryRec.min_days = specFullPartitionPercentile (1/10)
        (countryVals exampleFact "j1" (some "US")) ∧
     exampleCountryRec.max_days = specFullPartitionPercentile (9/10)
        (countryVals exampleFact "j1" (some "US"))) :=
  ⟨by decide, by decide,
   (c3_percentiles_of_distinct_values exampleFact 5 exampleCountryRec).1
     (by decide) (by decide)⟩

/-- C3 counterexample: the partition 1, 2, 2, 3 (duplicate value 2) is emitted
with `min_days` 3/2 and `max_days` 5/2, but the linear-interpolation 10th and
90th percentiles of the full untrimmed partition are 13/10 and 27/10. -/
theorem c3_counterexample :
    countryStatsQuery cexFact3 1 =
      [{ standard_job_id := "j", country_code := some "US", min_days := 3/2,
         avg_days := some 2, max_days := 5/2, job_postings_number := 4 }] ∧
    specFullPartitionPercentile (1/10) (countryVals cexFact3 "j" (some "US")) = 13/10 ∧
    specFullPartitionPercentile (9/10) (countryVals cexFact3 "j" (some "US")) = 27/10 ∧
    ((3 : Rat)/2 ≠ 13/10 ∧ (5 : Rat)/2 ≠ 27/10) := by
  decide

/-- C4 (amended): for every emitted record whose partition values are pairwise
distinct and whose grouping country code is non-null (and for every global
record), `avg_days` is the plain arithmetic mean of the kept subset.  With
duplicate values the claim fails (see the counterexample): the join weights a
kept value by (copies in partition) times (copies kept), not once.  A country
grouping with null country code always yields a null average, because the join
condition `country_code = country_code` never matches null. -/
theorem c4_trimmed_mean_of_distinct_values (fact : List JobPosting) (mp : Nat)
    (rec : DaysToHireStatistics) :
    (rec ∈ countryStatsQuery fact mp → rec.country_code ≠ none →
      (countryVals fact rec.standard_job_id rec.country_code).Nodup →
      rec.avg_days = specKeptMean (countryVals fact rec.standard_job_id rec.country_code)) ∧
    (rec ∈ globalStatsQuery fact mp →
      (globalVals fact rec.standard_job_id).Nodup →
      rec.avg_days = specKeptMean (globalVals fact rec.standard_job_id)) := by
  constructor
  · intro hmem hcc hnd
    obtain ⟨k, hk, hmp, rfl⟩ := mem_countryStatsQuery.mp hmem
    simp only [partitionStats_job, partitionStats_cc] at hnd hcc ⊢
    rw [partitionStats_avg]
    have hb : k.2.isNone = false := by
      cases hcase : k.2 with
      | none => exact absurd hcase hcc
      | some c => rfl
    rw [hb]
    exact avgKept_eq_specKeptMean hnd
  · intro hmem hnd
    obtain ⟨j, hj, hmp, rfl⟩ := mem_globalStatsQuery.mp hmem
    simp only [partitionStats_job] at hnd ⊢
    rw [partitionStats_avg]
    exact avgKept_eq_specKeptMean hnd

/-- Witness for C4: the distinct-valued example partition 10..50 keeps 20, 30,
40 and stores their plain mean 30. -/
theorem c4_witness :
    exampleCountryRec ∈ countryStatsQuery exampleFact 5 ∧
    exampleCountryRec.country_code ≠ none ∧
    (countryVals exampleFact "j1" (some "US")).Nodup ∧
    exampleCountryRec.avg_days = specKeptMean (countryVals exampleFact "j1" (some "US")) :=
  ⟨by decide, by decide, by decide,
   (c4_trimmed_mean_of_distinct_values exampleFact 5 exampleCountryRec).1
     (by decide) (by decide) (by decide)⟩

/-- C4 counterexample: the partition 1, 2, 2, 3, 4 keeps the subset 2, 2, 3
whose plain mean is 7/3, but the emitted record stores 11/5, because the join
counts the value 2 with weight four (two partition copies times two kept
copies) against weight one for 3. -/
theorem c4_counterexample :
    countryStatsQuery cexFact4 1 =
      [{ standard_job_id := "j", country_code := some "US", min_days := 8/5,
         avg_days := some (11/5), max_days := 17/5, job_postings_number := 5 }] ∧
    specKeptMean (countryVals cexFact4 "j" (some "US")) = some (7/3) ∧
    some ((11 : Rat)/5) ≠ some ((7 : Rat)/3) := by
  decide

/-- C6 (amended): with a non-empty countryCode supplied, the lookup returns only
a record whose country code equals that value; with countryCode omitted it
returns only the null-country (global) record.  As originally stated the claim
fails for a supplied empty-string countryCode, which Python truthiness routes to
the global lookup (see the counterexample). -/
theorem c6_exact_key_lookup (t : List StoredStatisticsRow) (j : String) :
    (∀ (c : String) (r : StoredStatisticsRow), c ≠ "" →
      get_statistics (Except.ok t) j (some c) = ApiResult.success r →
      r.country_code = some c) ∧
    (∀ r : StoredStatisticsRow,
      get_statistics (Except.ok t) j none = ApiResult.success r →
      r.country_code = none) := by
  constructor
  · intro c r hc hr
    unfold get_statistics at hr
    by_cases hj : (pyStrip j == "") = true
    · rw [if_pos hj] at hr
      cases hr
    · rw [if_neg hj] at hr
      have htr : strTruthy (some c) = true := by
        simp [strTruthy, hc]
      cases hh : (lookupRows t j (some c)).head? with
      | none =>
        simp only [hh] at hr
        cases hr
      | some row =>
        simp only [hh, ApiResult.success.injEq] at hr
        subst hr
        have hmemrow := mem_of_head_eq_some hh
        rw [lookupRows, if_pos htr] at hmemrow
        obtain ⟨hmem, hp⟩ := List.mem_filter.mp hmemrow
        rw [Bool.and_eq_true] at hp
        cases hcc : row.country_code with
        | none =>
          rw [hcc] at hp
          cases hp.2
        | some a =>
          rw [hcc] at hp
          have : a = c := by
            have h2 := hp.2
            simp only [sqlStrEq] at h2
            exact beq_iff_eq.mp h2
          rw [this]
  · intro r hr
    unfold get_statistics at hr
    by_cases hj : (pyStrip j == "") = true
    · rw [if_pos hj] at hr
      cases hr
    · rw [if_neg hj] at hr
      cases hh : (lookupRows t j none).head? with
      | none =>
        simp only [hh] at hr
        cases hr
      | some row =>
        simp only [hh, ApiResult.success.injEq] at hr
        subst hr
        have hmemrow := mem_of_head_eq_some hh
        rw [lookupRows] at hmemrow
        rw [if_neg (by simp [strTruthy])] at hmemrow
        obtain ⟨hmem, hp⟩ := List.mem_filter.mp hmemrow
        rw [Bool.and_eq_true] at hp
        exact beq_iff_eq.mp hp.2

/-- Witness for C6 at a table holding a `US` row and a global row. -/
theorem c6_witness :
    get_statistics (Except.ok [usStoredRow, nullCountryStoredRow]) "j" (some "US") =
      ApiResult.success usStoredRow ∧
    usStoredRow.country_code = some "US" :=
  ⟨by decide,
   (c6_exact_key_lookup [usStoredRow, nullCountryStoredRow] "j").1 "US" usStoredRow
     (by decide) (by decide)⟩

/-- C6 counterexample: with the empty string supplied as countryCode, the lookup
returns the null-country record, whose country code does not equal the supplied
value. -/
theorem c6_counterexample :
    get_statistics (Except.ok [nullCountryStoredRow]) "j" (some "") =
      ApiResult.success nullCountryStoredRow ∧
    nullCountryStoredRow.country_code ≠ some "" := by
  decide

/-- C7: invalid input (400) exactly when the standard job id is empty or blank;
not found (404) exactly when the input is valid, the datastore answered, and no
matching row exists, with a detail distinguishing the missing-global case from
the missing-job-and-country case; every datastore failure surfaces as an
internal error (500); and success always carries a row that actually matched in
the table, never a fabricated one for a missing key. -/
theorem c7_error_taxonomy (db : Except String (List StoredStatisticsRow))
    (j : String) (cc : Option String) :
    (statusOf (get_statistics db j cc) = 400 ↔ pyStrip j = "") ∧
    (∀ t, db = Except.ok t →
      (statusOf (get_statistics db j cc) = 404 ↔
        (pyStrip j ≠ "" ∧ lookupRows t j cc = []))) ∧
    (∀ e, db = Except.error e →
      (statusOf (get_statistics db j cc) = 500 ↔ pyStrip j ≠ "")) ∧
    (∀ d, get_statistics db j cc = ApiResult.notFound d →
      ((strTruthy cc = true →
          ∃ c, cc = some c ∧ d = NotFoundDetail.jobCountryMissing j c) ∧
       (strTruthy cc = false → d = NotFoundDetail.globalMissing j))) ∧
    (∀ r, get_statistics db j cc = ApiResult.success r →
      ∃ t, db = Except.ok t ∧ (lookupRows t j cc).head? = some r ∧ r ∈ t) := by
  by_cases hj : pyStrip j = ""
  · have hres : get_statistics db j cc =
        ApiResult.invalidInput "standard_job_id parameter is required and cannot be empty" := by
      unfold get_statistics
      rw [if_pos (beq_iff_eq.mpr hj)]
    refine ⟨?_, ?_, ?_, ?_, ?_⟩
    · rw [hres]
      simp [statusOf, hj]
    · intro t ht
      rw [hres]
      simp [statusOf, hj]
    · intro e he
      rw [hres]
      simp [statusOf, hj]
    · intro d hd
      rw [hres] at hd
      cases hd
    · intro r hr
      rw [hres] at hr
      cases hr
  · have hjb : (pyStrip j == "") = false := by
      simpa using hj
    cases db with
    | error e =>
      have hres : get_statistics (Except.error e) j cc =
          ApiResult.internalError
            ("Internal server error while retrieving statistics: " ++ e) := by
        unfold get_statistics
        rw [if_neg (by simp [hjb])]
      refine ⟨?_, ?_, ?_, ?_, ?_⟩
      · rw [hres]
        simp [statusOf, hj]
      · intro t ht
        cases ht
      · intro e2 he
        rw [hres]
        simp [statusOf, hj]
      · intro d hd
        rw [hres] at hd
        cases hd
      · intro r hr
        rw [hres] at hr
        cases hr
    | ok t =>
      cases hh : (lookupRows t j cc).head? with
      | some row =>
        have hres : get_statistics (Except.ok t) j cc = ApiResult.success row := by
          unfold get_statistics
          rw [if_neg (by simp [hjb])]
          simp only [hh]
        have hne : lookupRows t j cc ≠ [] := by
          intro h0
          rw [h0] at hh
          cases hh
        refine ⟨?_, ?_, ?_, ?_, ?_⟩
        · rw [hres]
          simp [statusOf, hj]
        · intro t2 ht2
          have ht2e : t2 = t := by
            injection ht2.symm
          subst ht2e
          rw [hres]
          simp [statusOf, hne]
        · intro e2 he
          cases he
        · intro d hd
          rw [hres] at hd
          cases hd
        · intro r hr
          rw [hres] at hr
          have hrow : row = r := by
            injection hr
          subst hrow
          refine ⟨t, rfl, hh, ?_⟩
          have hmemrow := mem_of_head_eq_some hh
          unfold lookupRows at hmemrow
          by_cases htr : strTruthy cc = true
          · rw [if_pos htr] at hmemrow
            exact List.mem_of_mem_filter hmemrow
          · rw [if_neg htr] at hmemrow
            exact List.mem_of_mem_filter hmemrow
      | none =>
        have hres : get_statistics (Except.ok t) j cc =
            ApiResult.notFound (detailFor j cc) := by
          unfold get_statistics
          rw [if_neg (by simp [hjb])]
          simp only [hh]
        have hnil : lookupRows t j cc = [] := List.head?_eq_none_iff.mp hh
        refine ⟨?_, ?_, ?_, ?_, ?_⟩
        · rw [hres]
          simp [statusOf, hj]
        · intro t2 ht2
          have ht2e : t2 = t := by
            injection ht2.symm
          subst ht2e
          rw [hres]
          simp [statusOf, hj, hnil]
        · intro e2 he
          cases he
        · intro d hd
          rw [hres] at hd
          have hde : d = detailFor j cc := by
            injection hd.symm
          subst hde
          constructor
          · intro htr
            cases hcc : cc with
            | none =>
              rw [hcc] at htr
              cases htr
            | some c =>
              refine ⟨c, rfl, ?_⟩
              rw [hcc] at htr
              have hcne : (c == "") = false := by
                cases hcb : (c == "") with
                | false => rfl
                | true =>
                  rw [strTruthy, hcb] at htr
                  cases htr
              simp [detailFor, hcne]
          · intro htr
            cases hcc : cc with
            | none => rfl
            | some c =>
              rw [hcc] at htr
              have hceq : (c == "") = true := by
                cases hcb : (c == "") with
                | true => rfl
                | false =>
                  rw [strTruthy, hcb] at htr
                  cases htr
              simp [detailFor, hceq]
        · intro r hr
          rw [hres] at hr
          cases hr

/-- Witness for C7: the empty table answers a valid global lookup with 404. -/
theorem c7_witness :
    statusOf (get_statistics (Except.ok ([] : List StoredStatisticsRow)) "job" none)
        = 404 ↔
      (pyStrip "job" ≠ "" ∧ lookupRows ([] : List StoredStatisticsRow) "job" none = []) :=
  (c7_error_taxonomy (Except.ok []) "job" none).2.1 [] rfl
